import Mathlib

/-!
Shallow embedding of the home-finder listing pipeline: the weighted rating
engine and net-monthly-cost model (src/rating.py, src/config.py), the
rental-offset estimator (src/rental_estimate.py), the JSON listing store
(src/store.py), the prune/merge orchestration (run.py), and the travel-time
enrichment pipeline (src/driving_times.py).

Modelling conventions, applied uniformly:

* Python numbers are embedded as rationals (`ℚ`).  Every numeric literal in
  the translated code denotes a rational exactly; where the Python code
  multiplies by a float constant and truncates (`int(x * 1.05)`,
  `int(x * 0.65)`), the embedding uses the exact rational computation, which
  was checked to agree with the IEEE-754 evaluation on the relevant ranges
  (see the doc comments at those definitions).
* A Python `dict` is an association list; assignment `d[k] = v` keeps the
  position of an existing key and appends a fresh key at the end, as CPython
  does; `d[k]` on a missing key and other uncaught exceptions are modelled
  by `Except.error` with the exception name as the message.
* `None`-able values are `Option`; Python truthiness (`if not beds`,
  `hoa or 0`, `if sqft`) is translated at each use site.
* `round(x, n)` is embedded as round-half-to-even of the denoted rational at
  `n` decimal places.
* External effects (geocoding, the OSRM routing call, the station-distance
  metric, which uses floating-point trigonometry) are parameters of the
  functions that consume them, so that every code path is a total, executable
  Lean function of the oracle outcomes.
-/

/-- Round half to even (banker's rounding), the rounding mode of Python's
built-in `round`, on the rational denoted by the float being rounded. -/
def roundHalfEven (q : ℚ) : ℤ :=
  if q - Int.floor q < 1/2 then Int.floor q
  else if q - Int.floor q > 1/2 then Int.floor q + 1
  else if Int.floor q % 2 = 0 then Int.floor q else Int.floor q + 1

/-- Python `round(x, 2)`. -/
def round2 (q : ℚ) : ℚ := (roundHalfEven (q * 100) : ℚ) / 100

/-- Python `round(x, 1)`. -/
def round1 (q : ℚ) : ℚ := (roundHalfEven (q * 10) : ℚ) / 10

/-! ## Rating engine — src/rating.py with its tables from src/config.py -/

/-- A listing record, restricted to the fields `score_listing` reads.
`none` is the absence of the key or a stored JSON `null`. -/
structure Listing where
  price : Option ℚ
  beds : Option ℤ
  hoa : Option ℚ
  sqft : Option ℚ
  net_monthly_cost : Option ℚ
  drive_seaport_min : Option ℚ
  drive_google_min : Option ℚ
  drive_mbta_min : Option ℚ
  in_unit_laundry : Option Bool
  parking : Option String

/-- The per-category integer scores dict built by `score_listing`
(rating.py:51-111).  The dict always receives exactly these ten keys, in
this insertion order, so it is embedded as a structure. -/
structure CategoryScores where
  price : ℤ
  price_per_bed : ℤ
  hoa : ℤ
  net_monthly_cost : ℤ
  commute_seaport : ℤ
  commute_google : ℤ
  mbta_proximity : ℤ
  in_unit_laundry : ℤ
  parking : ℤ
  size : ℤ
deriving DecidableEq

/-- `scores.get(category, 2)` (rating.py:116): the score stored under a
category name, defaulting to 2 for a name that is not a key. -/
def CategoryScores.get (s : CategoryScores) (category : String) : ℤ :=
  if category = "price" then s.price
  else if category = "price_per_bed" then s.price_per_bed
  else if category = "hoa" then s.hoa
  else if category = "net_monthly_cost" then s.net_monthly_cost
  else if category = "commute_seaport" then s.commute_seaport
  else if category = "commute_google" then s.commute_google
  else if category = "mbta_proximity" then s.mbta_proximity
  else if category = "in_unit_laundry" then s.in_unit_laundry
  else if category = "parking" then s.parking
  else if category = "size" then s.size
  else 2

/-- `RATING_WEIGHTS` (config.py:236-246), in dict iteration order. -/
def RATING_WEIGHTS : List (String × ℚ) :=
  [("price", 0.20),
   ("hoa", 0.10),
   ("net_monthly_cost", 0.20),
   ("commute_seaport", 0.15),
   ("commute_google", 0.10),
   ("mbta_proximity", 0.10),
   ("in_unit_laundry", 0.05),
   ("parking", 0.05),
   ("size", 0.05)]

/-- `RATING_THRESHOLDS` (config.py:249-256).  Note that the table has no
`"price_per_bed"` entry. -/
def RATING_THRESHOLDS : List (String × (ℚ × ℚ)) :=
  [("price", (400000, 500000)),
   ("hoa", (200, 400)),
   ("net_monthly_cost", (2000, 3000)),
   ("commute_seaport", (15, 30)),
   ("commute_google", (15, 25)),
   ("mbta_proximity", (5, 15))]

def RATING_GREEN_MIN : ℚ := 2.3

def RATING_YELLOW_MIN : ℚ := 1.7

/-- `RATING_THRESHOLDS[key]` — Python dict subscription: the stored pair, or
an uncaught `KeyError` when the key is missing. -/
def thresholdsFor (key : String) : Except String (ℚ × ℚ) :=
  match RATING_THRESHOLDS.find? (fun kv => kv.1 == key) with
  | some kv => Except.ok kv.2
  | none => Except.error ("KeyError: " ++ key)

/-- `_score_lower_is_better` (rating.py:20-31). -/
def _score_lower_is_better (value : Option ℚ) (green_max red_min : ℚ) : ℤ :=
  match value with
  | none => 2
  | some v =>
    if v ≤ green_max then 3
    else if v ≥ red_min then 1
    else 2

/-- `_score_boolean` (rating.py:34-38). -/
def _score_boolean (value : Option Bool) (good_value : Bool) : ℤ :=
  match value with
  | none => 2
  | some b => if b == good_value then 3 else 1

/-- `bool(parking and parking.lower() not in ("none listed", "none", ""))`
(rating.py:95-96).  `none` stands for an absent key or a stored `None`,
both of which are falsy. -/
def hasParking (parking : Option String) : Bool :=
  match parking with
  | none => false
  | some s =>
    if s = "" then false
    else !(["none listed", "none", ""].contains s.toLower)

/-- The size category (rating.py:99-111): guards follow Python truthiness,
so a present-but-zero value fails the `sqft and ...` tests. -/
def sizeScore (sqft : Option ℚ) (beds : Option ℤ) : ℤ :=
  let sqftTruthy : Bool := match sqft with | none => false | some x => x != 0
  let bedsTruthy : Bool := match beds with | none => false | some b => b != 0
  if sqftTruthy && decide (sqft.getD 0 ≥ 900) then 3
  else if bedsTruthy && decide (beds.getD 0 ≥ 2) then 3
  else if sqftTruthy && decide (sqft.getD 0 ≥ 700) then 2
  else if sqftTruthy && decide (sqft.getD 0 < 700) then 1
  else 2

/-- The recurring-fee (HOA) scoring step of `score_listing` (rating.py:63-66)
with the configured thresholds `RATING_THRESHOLDS["hoa"] = (200, 400)`
substituted: `hoa = listing.get("hoa") or 0` replaces a missing (or zero)
fee by `0` before scoring, so the scorer never sees `None` here. -/
def hoaScore (listing : Listing) : ℤ :=
  _score_lower_is_better (some (listing.hoa.getD 0)) 200 400

/-- The weighted-total loop of `score_listing` (rating.py:114-116):
`total += scores.get(category, weight) * weight` over `RATING_WEIGHTS`. -/
def weightedTotal (scores : CategoryScores) : ℚ :=
  RATING_WEIGHTS.foldl (fun total cw => total + (scores.get cw.1 : ℚ) * cw.2) 0

/-- The colour thresholds of `score_listing` (rating.py:119-124). -/
def colorOf (total : ℚ) : String :=
  if total ≥ RATING_GREEN_MIN then "Green"
  else if total ≥ RATING_YELLOW_MIN then "Yellow"
  else "Red"

/-- `score_listing` (rating.py:41-126).  Each `RATING_THRESHOLDS[...]`
subscription is a fallible dict access; an `Except.error` is an uncaught
Python exception escaping the function. -/
def score_listing (listing : Listing) : Except String (ℚ × String × CategoryScores) := do
  let tPrice ← thresholdsFor ("price")
  let sPrice := _score_lower_is_better listing.price tPrice.1 tPrice.2
  let tPpb ← thresholdsFor ("price_per_bed")
  let price_per_bed : Option ℚ :=
    match listing.beds with
    | some b => if 0 < b then some (listing.price.getD 0 / (b : ℚ)) else none
    | none => none
  let sPpb := _score_lower_is_better price_per_bed tPpb.1 tPpb.2
  let tHoa ← thresholdsFor ("hoa")
  let sHoa := _score_lower_is_better (some (listing.hoa.getD 0)) tHoa.1 tHoa.2
  let tNet ← thresholdsFor ("net_monthly_cost")
  let sNet := _score_lower_is_better listing.net_monthly_cost tNet.1 tNet.2
  let tSea ← thresholdsFor ("commute_seaport")
  let sSea := _score_lower_is_better listing.drive_seaport_min tSea.1 tSea.2
  let tGoo ← thresholdsFor ("commute_google")
  let sGoo := _score_lower_is_better listing.drive_google_min tGoo.1 tGoo.2
  let tMbta ← thresholdsFor ("mbta_proximity")
  let sMbta := _score_lower_is_better listing.drive_mbta_min tMbta.1 tMbta.2
  let sLaundry := _score_boolean listing.in_unit_laundry true
  let sParking := _score_boolean (some (hasParking listing.parking)) true
  let sSize := sizeScore listing.sqft listing.beds
  let scores : CategoryScores :=
    ⟨sPrice, sPpb, sHoa, sNet, sSea, sGoo, sMbta, sLaundry, sParking, sSize⟩
  let total := weightedTotal scores
  let color := colorOf total
  return (round2 total, color, scores)

/-- `estimate_net_monthly_cost` (rating.py:129-164).  The denominator of the
PMT annuity formula (rating.py:155) is split out as `pmtDenominator` so that
its non-vanishing can be stated. -/
def pmtDenominator (monthly_rate : ℚ) (n_payments : ℕ) : ℚ :=
  (1 + monthly_rate) ^ n_payments - 1

def estimate_net_monthly_cost (price hoa rental_estimate interest_rate down_payment_pct : ℚ)
    (loan_term_years : ℕ) (property_tax_rate insurance_monthly utilities_monthly internet_monthly : ℚ) : ℚ :=
  let down_payment := price * down_payment_pct
  let loan_amount := price - down_payment
  let monthly_rate := interest_rate / 12
  let n_payments := loan_term_years * 12
  let mortgage :=
    if monthly_rate > 0 then
      loan_amount * (monthly_rate * (1 + monthly_rate) ^ n_payments) / pmtDenominator monthly_rate n_payments
    else
      loan_amount / (n_payments : ℚ)
  let property_tax_mo := price * property_tax_rate / 12
  let total := mortgage + hoa + property_tax_mo + insurance_monthly + utilities_monthly + internet_monthly
  round2 (total - rental_estimate)

/-! ## Rental-offset estimator — src/rental_estimate.py -/

/-- `FALLBACK_RENTS` (config.py:277-290). -/
def FALLBACK_RENTS : List (String × ℤ) :=
  [("Quincy", 1800), ("Waltham", 1900), ("Newton", 2200), ("Watertown", 2100),
   ("Brighton", 2000), ("Allston", 1900), ("Somerville", 2300), ("Cambridge", 2500),
   ("Brookline", 2400), ("Medford", 1900), ("Arlington", 2000), ("Belmont", 2100)]

/-- `int(FALLBACK_RENTS[town] * 0.65)` (rental_estimate.py:50).  The Python
expression multiplies by the double nearest 0.65 and truncates; for each of
the twelve configured rents (and for 1800 at line 54) the IEEE-754 product
rounds to the exact integer `rent * 65 / 100`, so the exact rational
computation is used here (checked value by value). -/
def discountedRoomRent (rent : ℤ) : ℤ := rent * 65 / 100

/-- The fallback branches of `get_rental_estimate` (rental_estimate.py:48-54):
a per-town median discounted to 65%, else the metro-wide 1800 under the same
discount.  `town` being `None` or `""` is falsy, and `""` is not a key of
`FALLBACK_RENTS`, so both reach the metro fallback. -/
def fallbackRent (town : Option String) : ℤ :=
  match town with
  | some t =>
    match FALLBACK_RENTS.find? (fun kv => kv.1 == t) with
    | some kv => discountedRoomRent kv.2
    | none => discountedRoomRent 1800
  | none => discountedRoomRent 1800

/-- `get_rental_estimate` (rental_estimate.py:17-54).  `int(per_room * 1.05)`
multiplies by the double nearest 1.05 and truncates; since `per_room ≥ 0`
here and the exact product `per_room * 21/20` is a multiple of `1/20`, while
the IEEE-754 evaluation is off by less than `1/20` below an integer boundary
(for `per_room < 2^47` the rounding half-ulp is at most `2^-5` and the
`1.05`-representation error at most `2^47 * 2^-51 / 20 < 2^-5`), the float
truncates to the same integer `per_room * 105 / 100` (floor division) for
every `per_room` below `2^47`; the exact rational computation is used. -/
def get_rental_estimate (town : Option String) (rent_zestimate : Option ℤ) (beds : Option ℤ) : ℤ :=
  match beds with
  | none => 0
  | some b =>
    if b = 0 ∨ b < 2 then 0
    else
      match rent_zestimate with
      | some z =>
        if z ≠ 0 ∧ z > 0 then
          let per_room := Int.fdiv z b
          Int.fdiv (per_room * 105) 100
        else fallbackRent town
      | none => fallbackRent town

/-! ## Python dict primitives -/

/-- Python `d[k] = v` on a dict as association list: replace in place when
the key exists, append otherwise. -/
def dictInsert {κ α : Type} [DecidableEq κ] (d : List (κ × α)) (k : κ) (v : α) : List (κ × α) :=
  if d.any (fun kv => kv.1 = k) then d.map (fun kv => if kv.1 = k then (k, v) else kv)
  else d ++ [(k, v)]

/-- Python `del d[k]` for a key known to be present — and more generally
removal of every entry with key `k`. -/
def dictDelete {α : Type} (d : List (String × α)) (k : String) : List (String × α) :=
  d.filter (fun kv => kv.1 != k)

/-- `list(d.keys())`. -/
def keysOf {α : Type} (d : List (String × α)) : List String := d.map Prod.fst

/-- `d.get(k)` — the value stored under `k`, `none` when absent (a dict has
at most one entry per key; on an association list, the first match). -/
def dictGet {α : Type} (d : List (String × α)) (k : String) : Option α :=
  match d with
  | [] => none
  | kv :: rest => if kv.1 = k then some kv.2 else dictGet rest k

/-! ## Prune/merge orchestration — run.py -/

/-- `stale_ids = set(store.keys()) - active_ids` (run.py:63). -/
def staleIdsOf {α : Type} (store : List (String × α)) (active : List String) : List String :=
  (keysOf store).filter (fun k => !(active.contains k))

/-- `for sid in stale_ids: del store[sid]` (run.py:66-68). -/
def pruneStale {α : Type} (store : List (String × α)) (stale : List String) : List (String × α) :=
  stale.foldl dictDelete store

/-- `store[listing["zpid"]] = listing` over the enriched new listings
(run.py:148-149), each paired with its id. -/
def mergeNew {α : Type} (store : List (String × α)) (incoming : List (String × α)) : List (String × α) :=
  incoming.foldl (fun s kv => dictInsert s kv.1 kv.2) store

/-- The store transformation a run applies: prune the stale ids, then merge
the new records (run.py:62-68 and run.py:148-149). -/
def runPruneMerge {α : Type} (store : List (String × α)) (active : List String)
    (incoming : List (String × α)) : List (String × α) :=
  mergeNew (pruneStale store (staleIdsOf store active)) incoming

/-! ## Listing store — src/store.py -/

/-- A parsed JSON value. -/
inductive JVal where
  | jnull : JVal
  | jbool : Bool → JVal
  | jnum : ℚ → JVal
  | jstr : String → JVal
  | jarr : List JVal → JVal
  | jobj : List (String × JVal) → JVal

/-- A hashable Python value usable as a dict key (the JSON scalars); a list
or dict key raises `TypeError: unhashable type`. -/
inductive JKey where
  | kstr : String → JKey
  | knum : ℚ → JKey
  | kbool : Bool → JKey
  | knull : JKey
deriving DecidableEq

def toKey : JVal → Option JKey
  | .jstr s => some (.kstr s)
  | .jnum n => some (.knum n)
  | .jbool b => some (.kbool b)
  | .jnull => some .knull
  | .jarr _ => none
  | .jobj _ => none

/-- `"zpid" in item` (store.py:28): key test on a dict, membership on a
list, substring test on a string, `TypeError` on the other JSON values. -/
def zpidIn : JVal → Except String Bool
  | .jobj fields => .ok (fields.any (fun kv => kv.1 == "zpid"))
  | .jarr items => .ok (items.any (fun v => match v with | .jstr s => s == "zpid" | _ => false))
  | .jstr s => .ok ((s.splitOn ("zpid")).length != 1)
  | _ => .error ("TypeError")

/-- `item["zpid"]` (store.py:28): the value of the field on a dict,
`TypeError` on a list or string subscripted with a string, and on the rest. -/
def zpidGet : JVal → Except String JVal
  | .jobj fields =>
    match fields.find? (fun kv => kv.1 == "zpid") with
    | some kv => .ok kv.2
    | none => .error ("KeyError")
  | _ => .error ("TypeError")

/-- The dict comprehension `{item["zpid"]: item for item in data if "zpid" in item}`
(store.py:28), one item at a time; any raised `TypeError` aborts it. -/
def migrate (acc : List (JKey × JVal)) : List JVal → Except String (List (JKey × JVal))
  | [] => .ok acc
  | item :: rest =>
    match zpidIn item with
    | .error e => .error e
    | .ok b =>
      if b then
        match zpidGet item with
        | .error e => .error e
        | .ok v =>
          match toKey v with
          | some k => migrate (dictInsert acc k item) rest
          | none => .error ("TypeError")
      else migrate acc rest

/-- The Python value `load_store` hands back: a dict (with hashable keys),
or any other JSON value passed through unchanged. -/
inductive PyVal where
  | pdict : List (JKey × JVal) → PyVal
  | pyother : JVal → PyVal

/-- The state of the backing document as `load_store` observes it:
`missing` — `LISTINGS_STORE.exists()` is false; `undecodable` — the file
exists but its bytes are not valid UTF-8, so `read_text(encoding="utf-8")`
raises `UnicodeDecodeError`, which the `except` clause at store.py:30 does
not list; `invalidJson` — the text fails `json.loads` with a
`JSONDecodeError` (caught); `parsed v` — `json.loads` yields `v`. -/
inductive StoreFile where
  | missing : StoreFile
  | undecodable : StoreFile
  | invalidJson : StoreFile
  | parsed : JVal → StoreFile

/-- `load_store` (store.py:20-32).  `Except.error` is an uncaught exception
escaping the function. -/
def load_store : StoreFile → Except String PyVal
  | .missing => .ok (.pdict [])
  | .undecodable => .error ("UnicodeDecodeError")
  | .invalidJson => .ok (.pdict [])
  | .parsed v =>
    match v with
    | .jarr items =>
      match migrate [] items with
      | .ok d => .ok (.pdict d)
      | .error _ => .ok (.pdict [])
    | .jobj fields => .ok (.pdict (fields.map (fun kv => (JKey.kstr kv.1, kv.2))))
    | other => .ok (.pyother other)

/-- One step of the keyed form of a legacy flat list, in the spec's words:
key the record by its id when it has one, discard it otherwise. -/
def keyedStep (acc : List (JKey × JVal)) (item : JVal) : List (JKey × JVal) :=
  match item with
  | .jobj fields =>
    match fields.find? (fun kv => kv.1 == "zpid") with
    | some kv =>
      match toKey kv.2 with
      | some k => dictInsert acc k item
      | none => acc
    | none => acc
  | _ => acc

/-- The keyed form of a legacy flat list, in the spec's words: key each
record by its id, in order, discarding records that lack one. -/
def keyedForm (items : List JVal) : List (JKey × JVal) :=
  items.foldl keyedStep []

/-- A well-formed legacy document: every item is an object, and any `zpid`
field it carries holds a scalar (hashable) id. -/
def legacyOk (items : List JVal) : Bool :=
  items.all (fun item =>
    match item with
    | .jobj fields =>
      match fields.find? (fun kv => kv.1 == "zpid") with
      | some kv => (toKey kv.2).isSome
      | none => true
    | _ => false)


/-! ## Nearest transit node — src/driving_times.py -/

/-- One entry of `MBTA_STATIONS` (config.py:101-233). -/
structure Station where
  name : String
  lat : ℚ
  lng : ℚ
  line : String

def mbtaStations1 : List Station :=
  [⟨"Alewife", 42.3954, -71.1425, "Red"⟩,
   ⟨"Davis", 42.3967, -71.1218, "Red"⟩,
   ⟨"Porter", 42.3884, -71.1191, "Red"⟩,
   ⟨"Harvard", 42.3734, -71.1189, "Red"⟩,
   ⟨"Central", 42.3653, -71.1037, "Red"⟩,
   ⟨"Kendall/MIT", 42.3625, -71.0862, "Red"⟩,
   ⟨"Charles/MGH", 42.3613, -71.0707, "Red"⟩,
   ⟨"Park Street", 42.3564, -71.0624, "Red"⟩,
   ⟨"Downtown Crossing", 42.3555, -71.0602, "Red"⟩,
   ⟨"South Station", 42.3523, -71.0553, "Red"⟩,
   ⟨"Broadway", 42.3426, -71.0569, "Red"⟩,
   ⟨"Andrew", 42.3302, -71.0570, "Red"⟩,
   ⟨"JFK/UMass", 42.3209, -71.0524, "Red"⟩,
   ⟨"North Quincy", 42.2754, -71.0300, "Red"⟩,
   ⟨"Wollaston", 42.2665, -71.0198, "Red"⟩,
   ⟨"Quincy Center", 42.2516, -71.0052, "Red"⟩,
   ⟨"Quincy Adams", 42.2330, -71.0073, "Red"⟩,
   ⟨"Braintree", 42.2078, -71.0011, "Red"⟩,
   ⟨"Savin Hill", 42.3112, -71.0534, "Red"⟩,
   ⟨"Fields Corner", 42.3000, -71.0616, "Red"⟩,
   ⟨"Shawmut", 42.2932, -71.0658, "Red"⟩,
   ⟨"Ashmont", 42.2840, -71.0637, "Red"⟩,
   ⟨"Oak Grove", 42.4367, -71.0710, "Orange"⟩,
   ⟨"Malden Center", 42.4268, -71.0740, "Orange"⟩,
   ⟨"Wellington", 42.4046, -71.0770, "Orange"⟩,
   ⟨"Assembly", 42.3924, -71.0770, "Orange"⟩,
   ⟨"Sullivan Square", 42.3840, -71.0770, "Orange"⟩,
   ⟨"Community College", 42.3736, -71.0695, "Orange"⟩,
   ⟨"North Station", 42.3655, -71.0614, "Orange"⟩,
   ⟨"Haymarket", 42.3630, -71.0583, "Orange"⟩,
   ⟨"State", 42.3587, -71.0576, "Orange"⟩]

def mbtaStations2 : List Station :=
  [⟨"Downtown Crossing", 42.3555, -71.0602, "Orange"⟩,
   ⟨"Chinatown", 42.3524, -71.0625, "Orange"⟩,
   ⟨"Tufts Medical Center", 42.3497, -71.0638, "Orange"⟩,
   ⟨"Back Bay", 42.3474, -71.0753, "Orange"⟩,
   ⟨"Massachusetts Ave", 42.3414, -71.0835, "Orange"⟩,
   ⟨"Ruggles", 42.3365, -71.0890, "Orange"⟩,
   ⟨"Roxbury Crossing", 42.3313, -71.0954, "Orange"⟩,
   ⟨"Jackson Square", 42.3233, -71.0998, "Orange"⟩,
   ⟨"Stony Brook", 42.3170, -71.1042, "Orange"⟩,
   ⟨"Green Street", 42.3104, -71.1074, "Orange"⟩,
   ⟨"Forest Hills", 42.3006, -71.1139, "Orange"⟩,
   ⟨"Wonderland", 42.4135, -70.9917, "Blue"⟩,
   ⟨"Revere Beach", 42.4077, -70.9925, "Blue"⟩,
   ⟨"Beachmont", 42.3975, -70.9923, "Blue"⟩,
   ⟨"Suffolk Downs", 42.3903, -70.9972, "Blue"⟩,
   ⟨"Orient Heights", 42.3867, -71.0046, "Blue"⟩,
   ⟨"Wood Island", 42.3796, -71.0230, "Blue"⟩,
   ⟨"Airport", 42.3742, -71.0302, "Blue"⟩,
   ⟨"Maverick", 42.3691, -71.0396, "Blue"⟩,
   ⟨"Aquarium", 42.3597, -71.0517, "Blue"⟩,
   ⟨"Government Center", 42.3594, -71.0592, "Blue"⟩,
   ⟨"Bowdoin", 42.3614, -71.0620, "Blue"⟩,
   ⟨"Lechmere", 42.3708, -71.0769, "Green"⟩,
   ⟨"Science Park", 42.3665, -71.0681, "Green"⟩,
   ⟨"North Station", 42.3655, -71.0614, "Green"⟩,
   ⟨"Haymarket", 42.3630, -71.0583, "Green"⟩,
   ⟨"Government Center", 42.3594, -71.0592, "Green"⟩,
   ⟨"Park Street", 42.3564, -71.0624, "Green"⟩,
   ⟨"Boylston", 42.3529, -71.0646, "Green"⟩,
   ⟨"Arlington", 42.3519, -71.0707, "Green"⟩]

def mbtaStations3 : List Station :=
  [⟨"Copley", 42.3500, -71.0774, "Green"⟩,
   ⟨"Hynes Convention Center", 42.3479, -71.0874, "Green"⟩,
   ⟨"Kenmore", 42.3487, -71.0952, "Green"⟩,
   ⟨"Blandford Street", 42.3492, -71.1003, "Green-B"⟩,
   ⟨"Boston University East", 42.3500, -71.1040, "Green-B"⟩,
   ⟨"Boston University Central", 42.3503, -71.1068, "Green-B"⟩,
   ⟨"Boston University West", 42.3508, -71.1132, "Green-B"⟩,
   ⟨"Packards Corner", 42.3515, -71.1161, "Green-B"⟩,
   ⟨"Harvard Avenue", 42.3504, -71.1312, "Green-B"⟩,
   ⟨"Allston Street", 42.3487, -71.1372, "Green-B"⟩,
   ⟨"Warren Street", 42.3484, -71.1404, "Green-B"⟩,
   ⟨"Washington Street", 42.3434, -71.1498, "Green-B"⟩,
   ⟨"Sutherland Road", 42.3418, -71.1462, "Green-B"⟩,
   ⟨"Chiswick Road", 42.3407, -71.1528, "Green-B"⟩,
   ⟨"Chestnut Hill Avenue", 42.3386, -71.1534, "Green-B"⟩,
   ⟨"South Street", 42.3398, -71.1575, "Green-B"⟩,
   ⟨"Boston College", 42.3396, -71.1664, "Green-B"⟩,
   ⟨"Saint Marys Street", 42.3459, -71.1049, "Green-C"⟩,
   ⟨"Hawes Street", 42.3442, -71.1111, "Green-C"⟩,
   ⟨"Kent Street", 42.3424, -71.1146, "Green-C"⟩,
   ⟨"Saint Paul Street", 42.3404, -71.1165, "Green-C"⟩,
   ⟨"Coolidge Corner", 42.3387, -71.1209, "Green-C"⟩,
   ⟨"Summit Avenue", 42.3400, -71.1274, "Green-C"⟩,
   ⟨"Brandon Hall", 42.3397, -71.1310, "Green-C"⟩,
   ⟨"Fairbanks Street", 42.3391, -71.1345, "Green-C"⟩,
   ⟨"Washington Square", 42.3393, -71.1386, "Green-C"⟩,
   ⟨"Tappan Street", 42.3383, -71.1418, "Green-C"⟩,
   ⟨"Dean Road", 42.3373, -71.1445, "Green-C"⟩,
   ⟨"Englewood Avenue", 42.3365, -71.1481, "Green-C"⟩,
   ⟨"Cleveland Circle", 42.3362, -71.1511, "Green-C"⟩]

def mbtaStations4 : List Station :=
  [⟨"Fenway", 42.3450, -71.1004, "Green-D"⟩,
   ⟨"Longwood", 42.3416, -71.1097, "Green-D"⟩,
   ⟨"Brookline Village", 42.3326, -71.1168, "Green-D"⟩,
   ⟨"Brookline Hills", 42.3312, -71.1264, "Green-D"⟩,
   ⟨"Beaconsfield", 42.3310, -71.1410, "Green-D"⟩,
   ⟨"Reservoir", 42.3352, -71.1488, "Green-D"⟩,
   ⟨"Chestnut Hill", 42.3268, -71.1646, "Green-D"⟩,
   ⟨"Newton Centre", 42.3293, -71.1921, "Green-D"⟩,
   ⟨"Newton Highlands", 42.3219, -71.2060, "Green-D"⟩,
   ⟨"Eliot", 42.3190, -71.2163, "Green-D"⟩,
   ⟨"Waban", 42.3260, -71.2305, "Green-D"⟩,
   ⟨"Woodland", 42.3330, -71.2430, "Green-D"⟩,
   ⟨"Riverside", 42.3372, -71.2523, "Green-D"⟩,
   ⟨"Prudential", 42.3458, -71.0819, "Green-E"⟩,
   ⟨"Symphony", 42.3425, -71.0854, "Green-E"⟩,
   ⟨"Northeastern University", 42.3400, -71.0888, "Green-E"⟩,
   ⟨"Museum of Fine Arts", 42.3375, -71.0958, "Green-E"⟩,
   ⟨"Longwood Medical Area", 42.3354, -71.0993, "Green-E"⟩,
   ⟨"Brigham Circle", 42.3343, -71.1044, "Green-E"⟩,
   ⟨"Fenwood Road", 42.3333, -71.1056, "Green-E"⟩,
   ⟨"Mission Park", 42.3319, -71.1089, "Green-E"⟩,
   ⟨"Riverway", 42.3319, -71.1089, "Green-E"⟩,
   ⟨"Back of the Hill", 42.3299, -71.1107, "Green-E"⟩,
   ⟨"Heath Street", 42.3285, -71.1111, "Green-E"⟩,
   ⟨"East Somerville", 42.3793, -71.0870, "Green-Ext"⟩,
   ⟨"Gilman Square", 42.3880, -71.0960, "Green-Ext"⟩,
   ⟨"Magoun Square", 42.3934, -71.1061, "Green-Ext"⟩,
   ⟨"Ball Square", 42.3987, -71.1107, "Green-Ext"⟩,
   ⟨"Medford/Tufts", 42.4074, -71.1166, "Green-Ext"⟩,
   ⟨"Union Square", 42.3770, -71.0930, "Green-Ext"⟩]

/-- `MBTA_STATIONS` (config.py:101-233), in source order (the list is
split into four literals only to keep elaboration cheap). -/
def MBTA_STATIONS : List Station :=
  mbtaStations1 ++ mbtaStations2 ++ mbtaStations3 ++ mbtaStations4
/-- One iteration of the loop in `find_nearest_mbta`
(driving_times.py:173-181).  The state is
`(best_name, best_dist, best_lat, best_lng)`; `best_dist = none` stands for
the initial `float("inf")`, which every finite distance beats.  The distance
metric `d` (the floating-point `_haversine_km`, driving_times.py:149-160) is
a parameter: the loop is proved correct for every metric. -/
def nearStep (d : ℚ → ℚ → ℚ → ℚ → ℚ) (lat lng : ℚ)
    (best : String × Option ℚ × ℚ × ℚ) (station : Station) : String × Option ℚ × ℚ × ℚ :=
  let dist := d lat lng station.lat station.lng
  match best.2.1 with
  | none => (station.name, some dist, station.lat, station.lng)
  | some bd => if dist < bd then (station.name, some dist, station.lat, station.lng) else best

/-- `find_nearest_mbta` (driving_times.py:163-183), parameterized by the
distance metric. -/
def find_nearest_mbta (d : ℚ → ℚ → ℚ → ℚ → ℚ) (lat lng : ℚ) : String × ℚ × ℚ :=
  let final := MBTA_STATIONS.foldl (nearStep d lat lng) ("", none, 0, 0)
  (final.1, final.2.2.1, final.2.2.2)

/-- Reference recursion for the same loop: the running best after folding a
list of stations over an initial candidate `b`, replacing only on strict
improvement. -/
def pick (dd : Station → ℚ) (b : Station) : List Station → Station
  | [] => b
  | s :: rest => pick dd (if dd s < dd b then s else b) rest

/-- The distance the loop computes for a station. -/
def distOf (d : ℚ → ℚ → ℚ → ℚ → ℚ) (lat lng : ℚ) (s : Station) : ℚ :=
  d lat lng s.lat s.lng

/-- The loop state that holds station `s` as the current best. -/
def stateOfStation (d : ℚ → ℚ → ℚ → ℚ → ℚ) (lat lng : ℚ) (s : Station) :
    String × Option ℚ × ℚ × ℚ :=
  (s.name, some (distOf d lat lng s), s.lat, s.lng)

/-! ## Travel-time enrichment — src/driving_times.py -/

/-- The outcome of the one OSRM Table request `compute_driving_times`
issues, as `_osrm_table` (driving_times.py:74-114) exposes it: `failed` is
any raised transport/parse error or a response whose `code` is not `"Ok"`
(all of which the function maps to `[None] * len(destinations)`), and
`row ds` is the parsed `data["durations"][0]`. -/
inductive OsrmResp where
  | failed : OsrmResp
  | row : List (Option ℚ) → OsrmResp

/-- `_osrm_table` (driving_times.py:74-114) as a function of the response
outcome and of `len(destinations)`. -/
def _osrm_table (resp : OsrmResp) (nDest : ℕ) : List (Option ℚ) :=
  match resp with
  | .failed => List.replicate nDest none
  | .row ds => ds

/-- `to_minutes` (driving_times.py:235-238). -/
def to_minutes (seconds : Option ℚ) : Option ℚ :=
  match seconds with
  | none => none
  | some s => some (round1 (s / 60))

/-- Python list subscription `l[i]`: `IndexError` past the end. -/
def pyIndex {β : Type} (l : List β) (i : ℕ) : Except String β :=
  match l.get? i with
  | some x => Except.ok x
  | none => Except.error ("IndexError")

/-- `DESTINATIONS["seaport"]` (config.py:94). -/
def SEAPORT : ℚ × ℚ := (42.3519, -71.0446)

/-- `DESTINATIONS["google_cambridge"]` (config.py:95). -/
def GOOGLE_CAMBRIDGE : ℚ × ℚ := (42.3625, -71.0847)

/-- The record `compute_driving_times` returns (driving_times.py:199-205). -/
structure DriveTimes where
  drive_mbta_min : Option ℚ
  nearest_mbta_station : String
  drive_seaport_min : Option ℚ
  drive_google_min : Option ℚ
deriving DecidableEq

/-- `compute_driving_times` (driving_times.py:188-245).  `d` is the
station-distance metric, `geo` the geocoder outcome per address
(`geocode_address`, driving_times.py:39-69, returning `none` on failure),
and `resp` the outcome of the single OSRM table request. -/
def compute_driving_times (d : ℚ → ℚ → ℚ → ℚ → ℚ) (geo : String → Option (ℚ × ℚ))
    (resp : OsrmResp) (address : String) (lat lng : Option ℚ) :
    Except String DriveTimes := do
  let coords : Option (ℚ × ℚ) :=
    match lat, lng with
    | some la, some ln => some (la, ln)
    | _, _ => geo address
  match coords with
  | none => return ⟨none, "Unknown", none, none⟩
  | some (la, ln) =>
    let nearest := find_nearest_mbta d la ln
    let dest_list : List (ℚ × ℚ) := [(nearest.2.1, nearest.2.2), SEAPORT, GOOGLE_CAMBRIDGE]
    let durations := _osrm_table resp dest_list.length
    let d0 ← pyIndex durations 0
    let d1 ← pyIndex durations 1
    let d2 ← pyIndex durations 2
    return ⟨to_minutes d0, nearest.1, to_minutes d1, to_minutes d2⟩

/-- A constant distance metric, for concrete instantiations. -/
def constantMetric : ℚ → ℚ → ℚ → ℚ → ℚ := fun _ _ _ _ => 0

/-- A geocoder that resolves nothing, for concrete instantiations. -/
def unresolvedGeo : String → Option (ℚ × ℚ) := fun _ => none

/-! # Claims -/

/-- C1: the claim states that `score_listing` returns, for every listing, a
total in `[1.0, 3.0]` and one of the three colours per the documented
thresholds.  The code cannot: `RATING_THRESHOLDS` has no `"price_per_bed"`
key, so the subscription at rating.py:58 raises `KeyError` on every call and
`score_listing` never returns — contradicting its own docstring
(rating.py:45-49). -/
theorem score_listing_always_raises :
    (∀ listing : Listing, score_listing listing = Except.error ("KeyError: price_per_bed"))
    ∧ (RATING_WEIGHTS.map Prod.snd).sum = 1
    ∧ RATING_WEIGHTS.length = 9 := by
  refine ⟨fun listing => rfl, ?_, rfl⟩
  norm_num [RATING_WEIGHTS]

/-- Supporting fact for C1: the aggregation tail of `score_listing`
(rating.py:113-126) does satisfy the claimed bound — for per-category
scores in `[1, 3]`, the weighted total over `RATING_WEIGHTS` lies in
`[1.0, 3.0]` (the weights sum to 1), which is what the claim asserts the
function would return were the threshold lookup not broken. -/
theorem weightedTotal_bounds (s : CategoryScores)
    (h : ∀ c : String, 1 ≤ s.get c ∧ s.get c ≤ 3) :
    1 ≤ weightedTotal s ∧ weightedTotal s ≤ 3 := by
  have e : weightedTotal s
      = 0 + (s.price : ℚ) * 0.20 + (s.hoa : ℚ) * 0.10 + (s.net_monthly_cost : ℚ) * 0.20
        + (s.commute_seaport : ℚ) * 0.15 + (s.commute_google : ℚ) * 0.10
        + (s.mbta_proximity : ℚ) * 0.10 + (s.in_unit_laundry : ℚ) * 0.05
        + (s.parking : ℚ) * 0.05 + (s.size : ℚ) * 0.05 := rfl
  have c1a : (1 : ℚ) ≤ (s.price : ℚ) := by exact_mod_cast (h ("price")).1
  have c1b : (s.price : ℚ) ≤ 3 := by exact_mod_cast (h ("price")).2
  have c2a : (1 : ℚ) ≤ (s.hoa : ℚ) := by exact_mod_cast (h ("hoa")).1
  have c2b : (s.hoa : ℚ) ≤ 3 := by exact_mod_cast (h ("hoa")).2
  have c3a : (1 : ℚ) ≤ (s.net_monthly_cost : ℚ) := by exact_mod_cast (h ("net_monthly_cost")).1
  have c3b : (s.net_monthly_cost : ℚ) ≤ 3 := by exact_mod_cast (h ("net_monthly_cost")).2
  have c4a : (1 : ℚ) ≤ (s.commute_seaport : ℚ) := by exact_mod_cast (h ("commute_seaport")).1
  have c4b : (s.commute_seaport : ℚ) ≤ 3 := by exact_mod_cast (h ("commute_seaport")).2
  have c5a : (1 : ℚ) ≤ (s.commute_google : ℚ) := by exact_mod_cast (h ("commute_google")).1
  have c5b : (s.commute_google : ℚ) ≤ 3 := by exact_mod_cast (h ("commute_google")).2
  have c6a : (1 : ℚ) ≤ (s.mbta_proximity : ℚ) := by exact_mod_cast (h ("mbta_proximity")).1
  have c6b : (s.mbta_proximity : ℚ) ≤ 3 := by exact_mod_cast (h ("mbta_proximity")).2
  have c7a : (1 : ℚ) ≤ (s.in_unit_laundry : ℚ) := by exact_mod_cast (h ("in_unit_laundry")).1
  have c7b : (s.in_unit_laundry : ℚ) ≤ 3 := by exact_mod_cast (h ("in_unit_laundry")).2
  have c8a : (1 : ℚ) ≤ (s.parking : ℚ) := by exact_mod_cast (h ("parking")).1
  have c8b : (s.parking : ℚ) ≤ 3 := by exact_mod_cast (h ("parking")).2
  have c9a : (1 : ℚ) ≤ (s.size : ℚ) := by exact_mod_cast (h ("size")).1
  have c9b : (s.size : ℚ) ≤ 3 := by exact_mod_cast (h ("size")).2
  rw [e]
  constructor <;> norm_num <;> linarith

/-- C10: the claim states that the per-bedroom-price score is always present
in the returned category-scores map yet never contributes to the weighted
total.  In fact `score_listing` raises `KeyError` at the
`RATING_THRESHOLDS["price_per_bed"]` lookup (rating.py:58) before that score
is even computed, so no map is ever returned (first conjunct, at a concrete
listing); the aggregation loop itself (rating.py:113-126) is indeed
independent of the `price_per_bed` entry, since `RATING_WEIGHTS` has no such
key (remaining conjuncts). -/
theorem price_per_bed_unweighted :
    (score_listing ⟨some 500000, some 2, some 100, some 800, some 2500, some 20,
        some 20, some 10, some true, some ("Garage")⟩
      = Except.error ("KeyError: price_per_bed"))
    ∧ ∀ (s : CategoryScores) (z : ℤ),
        weightedTotal { s with price_per_bed := z } = weightedTotal s
        ∧ colorOf (weightedTotal { s with price_per_bed := z })
            = colorOf (weightedTotal s) := by
  refine ⟨rfl, fun s z => ?_⟩
  cases s
  exact ⟨rfl, rfl⟩

/-- C2 counterexample: the claim states that a listing with no recurring-fee
value receives the neutral score 2 for that category; but
`hoa = listing.get("hoa") or 0` (rating.py:65) turns a missing fee into `0`,
which scores 3 (green), not 2. -/
theorem hoa_missing_scored_green :
    hoaScore ⟨none, none, none, none, none, none, none, none, none, none⟩ = 3
    ∧ hoaScore ⟨none, none, none, none, none, none, none, none, none, none⟩ ≠ 2 :=
  ⟨rfl, by decide⟩

/-- C2 (amended): for a lower-is-better category with thresholds
`(green_max, red_min)`, `green_max < red_min`, the scorer gives 3 at or
below the green ceiling, 1 at or above the red floor, 2 strictly between,
and 2 on a missing value; but `score_listing` feeds the recurring-fee
scorer `listing.get("hoa") or 0`, so a listing with no recurring-fee value
scores 3 for that category, not the neutral 2 (and `score_listing` as a
whole fails even earlier, see C1). -/
theorem lower_is_better_thresholds (green_max red_min : ℚ) (h : green_max < red_min) :
    _score_lower_is_better none green_max red_min = 2
    ∧ (∀ v : ℚ, v ≤ green_max → _score_lower_is_better (some v) green_max red_min = 3)
    ∧ (∀ v : ℚ, red_min ≤ v → _score_lower_is_better (some v) green_max red_min = 1)
    ∧ (∀ v : ℚ, green_max < v → v < red_min →
        _score_lower_is_better (some v) green_max red_min = 2)
    ∧ (∀ listing : Listing, listing.hoa = none → hoaScore listing = 3) := by
  refine ⟨rfl, ?_, ?_, ?_, ?_⟩
  · intro v hv
    simp [_score_lower_is_better, hv]
  · intro v hv
    have hng : ¬ v ≤ green_max := by linarith
    simp [_score_lower_is_better, hng, hv]
  · intro v h1 h2
    have hng : ¬ v ≤ green_max := by linarith
    have hnr : ¬ red_min ≤ v := by linarith
    simp [_score_lower_is_better, hng, hnr]
  · intro listing hl
    simp [hoaScore, hl, _score_lower_is_better]

/-- Witness for C2's theorem at the configured HOA thresholds. -/
theorem lower_is_better_thresholds_witness :
    (200 : ℚ) < 400 ∧ _score_lower_is_better (some 100) 200 400 = 3 :=
  ⟨by norm_num, (lower_is_better_thresholds 200 400 (by norm_num)).2.1 100 (by norm_num)⟩

/-- C5: `get_rental_estimate` returns 0 whenever the bedroom count is
absent or below 2, for any town and any estimate; and with a positive
estimate and at least two bedrooms it returns
`floor(estimate / beds) * 1.05` truncated to an integer, i.e.
`((z // b) * 105) // 100`, independent of the town. -/
theorem rental_offset_rules (town : Option String) (est : Option ℤ) :
    get_rental_estimate town est none = 0
    ∧ (∀ b : ℤ, b < 2 → get_rental_estimate town est (some b) = 0)
    ∧ (∀ z b : ℤ, 0 < z → 2 ≤ b →
        get_rental_estimate town (some z) (some b) = Int.fdiv (Int.fdiv z b * 105) 100) := by
  refine ⟨rfl, ?_, ?_⟩
  · intro b hb
    have h : b = 0 ∨ b < 2 := Or.inr hb
    simp only [get_rental_estimate, if_pos h]
  · intro z b hz hb
    have h1 : ¬ (b = 0 ∨ b < 2) := by omega
    have h2 : z ≠ 0 ∧ z > 0 := ⟨by omega, hz⟩
    simp only [get_rental_estimate, if_neg h1, if_pos h2]

/-- Witness for C5 at the spec's example: estimate 2200 with 2 bedrooms
gives 1155. -/
theorem rental_offset_rules_witness :
    (0 : ℤ) < 2200 ∧ (2 : ℤ) ≤ 2
    ∧ get_rental_estimate (some ("Quincy")) (some 2200) (some 2) = 1155 := by
  refine ⟨by decide, by decide, ?_⟩
  rw [(rental_offset_rules (some ("Quincy")) (some 2200)).2.2 2200 2 (by decide) (by decide)]
  decide

/-- The PMT denominator is positive for a positive monthly rate and at
least one payment. -/
theorem pmtDenominator_pos (m : ℚ) (n : ℕ) (hm : 0 < m) (hn : 0 < n) :
    0 < pmtDenominator m n := by
  unfold pmtDenominator
  have h1 : (1 : ℚ) + m ≤ (1 + m) ^ n := le_self_pow₀ (by linarith) (by omega)
  linarith

/-- C9: with a positive loan term, a zero interest rate takes the
`loan / n_payments` branch (so the annuity formula's division is never
evaluated), and for a positive monthly rate the annuity denominator
`(1+r)^n - 1` is nonzero, as is `n_payments`; the function therefore
returns a value for every non-negative rate instead of dividing by zero. -/
theorem net_cost_zero_rate_safe (price hoa rental dp tax ins util inet r : ℚ) (years : ℕ)
    (hy : 0 < years) :
    (r = 0 → estimate_net_monthly_cost price hoa rental r dp years tax ins util inet
      = round2 ((price - price * dp) / ((years * 12 : ℕ) : ℚ)
          + hoa + price * tax / 12 + ins + util + inet - rental))
    ∧ (0 < r / 12 → pmtDenominator (r / 12) (years * 12) ≠ 0)
    ∧ ((years * 12 : ℕ) : ℚ) ≠ 0 := by
  refine ⟨?_, ?_, ?_⟩
  · intro hr
    subst hr
    have hcond : ¬ ((0 : ℚ) / 12 > 0) := by norm_num
    simp only [estimate_net_monthly_cost, if_neg hcond]
  · intro hm
    exact ne_of_gt (pmtDenominator_pos _ _ hm (by omega))
  · exact Nat.cast_ne_zero.mpr (by omega)

/-- Witness for C9 at the default assumption set (rate 0.065, 30 years). -/
theorem net_cost_zero_rate_safe_witness :
    (0 : ℚ) < 13 / 200 / 12 ∧ pmtDenominator (13 / 200 / 12) (30 * 12) ≠ 0 :=
  ⟨by norm_num,
   (net_cost_zero_rate_safe 550000 0 1155 0.20 0.012 150 250 60 (13 / 200) 30
      (by norm_num)).2.1 (by norm_num)⟩

/-- `roundHalfEven` sits between the floor and the ceiling-by-one of its
argument. -/
theorem roundHalfEven_bounds (q : ℚ) :
    Int.floor q ≤ roundHalfEven q ∧ roundHalfEven q ≤ Int.floor q + 1 := by
  unfold roundHalfEven
  split_ifs <;> omega

/-- `roundHalfEven` is monotone. -/
theorem roundHalfEven_mono {a b : ℚ} (h : a ≤ b) :
    roundHalfEven a ≤ roundHalfEven b := by
  have hf : Int.floor a ≤ Int.floor b := Int.floor_le_floor h
  rcases lt_or_eq_of_le hf with hlt | heq
  · have ba := roundHalfEven_bounds a
    have bb := roundHalfEven_bounds b
    omega
  · unfold roundHalfEven
    rw [← heq]
    split_ifs <;> first | omega | linarith

/-- `round2` is monotone. -/
theorem round2_mono {a b : ℚ} (h : a ≤ b) : round2 a ≤ round2 b := by
  unfold round2
  have h1 : roundHalfEven (a * 100) ≤ roundHalfEven (b * 100) :=
    roundHalfEven_mono (by linarith)
  have h2 : ((roundHalfEven (a * 100) : ℚ)) ≤ (roundHalfEven (b * 100) : ℚ) := by
    exact_mod_cast h1
  linarith

/-- C6: `estimate_net_monthly_cost` is monotonically non-decreasing in the
price (for a down-payment fraction at most 1, a non-negative property-tax
rate and a positive loan term) and in the recurring fee (unconditionally),
holding every other parameter fixed. -/
theorem net_cost_monotone (p1 p2 price hoa hoa1 hoa2 rental r dp tax ins util inet : ℚ)
    (years : ℕ) :
    (p1 ≤ p2 → dp ≤ 1 → 0 ≤ tax → 0 < years →
      estimate_net_monthly_cost p1 hoa rental r dp years tax ins util inet
        ≤ estimate_net_monthly_cost p2 hoa rental r dp years tax ins util inet)
    ∧ (hoa1 ≤ hoa2 →
      estimate_net_monthly_cost price hoa1 rental r dp years tax ins util inet
        ≤ estimate_net_monthly_cost price hoa2 rental r dp years tax ins util inet) := by
  constructor
  · intro h12 hdp htax hy
    simp only [estimate_net_monthly_cost]
    apply round2_mono
    have hn : (0 : ℚ) < ((years * 12 : ℕ) : ℚ) := by
      exact_mod_cast Nat.mul_pos hy (by norm_num)
    have hloan : p1 - p1 * dp ≤ p2 - p2 * dp := by
      have := mul_le_mul_of_nonneg_right h12 (by linarith : (0 : ℚ) ≤ 1 - dp)
      nlinarith
    have htaxmono : p1 * tax / 12 ≤ p2 * tax / 12 := by
      have := mul_le_mul_of_nonneg_right h12 htax
      linarith
    by_cases hm : r / 12 > 0
    · simp only [if_pos hm]
      have hD : 0 < pmtDenominator (r / 12) (years * 12) :=
        pmtDenominator_pos _ _ hm (by omega)
      have hK : 0 ≤ r / 12 * (1 + r / 12) ^ (years * 12) :=
        mul_nonneg (le_of_lt hm) (pow_nonneg (by linarith) _)
      have hmort :
          (p1 - p1 * dp) * (r / 12 * (1 + r / 12) ^ (years * 12)) / pmtDenominator (r / 12) (years * 12)
          ≤ (p2 - p2 * dp) * (r / 12 * (1 + r / 12) ^ (years * 12)) / pmtDenominator (r / 12) (years * 12) := by
        apply (div_le_div_right hD).mpr
        exact mul_le_mul_of_nonneg_right hloan hK
      linarith [hmort]
    · simp only [if_neg hm]
      have hmort : (p1 - p1 * dp) / ((years * 12 : ℕ) : ℚ)
          ≤ (p2 - p2 * dp) / ((years * 12 : ℕ) : ℚ) :=
        (div_le_div_right hn).mpr hloan
      linarith [hmort]
  · intro hh
    simp only [estimate_net_monthly_cost]
    apply round2_mono
    by_cases hm : r / 12 > 0 <;> simp only [if_pos, if_neg, hm] <;> linarith

/-- Witness for C6 at concrete prices and fees (rate 0, the default
assumption set otherwise). -/
theorem net_cost_monotone_witness :
    (500000 : ℚ) ≤ 550000 ∧ (0.20 : ℚ) ≤ 1 ∧ (0 : ℚ) ≤ 0.012 ∧ (0 < 30)
    ∧ estimate_net_monthly_cost 500000 300 1155 0 0.20 30 0.012 150 250 60
        ≤ estimate_net_monthly_cost 550000 300 1155 0 0.20 30 0.012 150 250 60
    ∧ estimate_net_monthly_cost 550000 100 1155 0 0.20 30 0.012 150 250 60
        ≤ estimate_net_monthly_cost 550000 300 1155 0 0.20 30 0.012 150 250 60 :=
  ⟨by norm_num, by norm_num, by norm_num, by norm_num,
   (net_cost_monotone 500000 550000 550000 300 100 300 1155 0 0.20 0.012 150 250 60 30).1
     (by norm_num) (by norm_num) (by norm_num) (by norm_num),
   (net_cost_monotone 500000 550000 550000 300 100 300 1155 0 0.20 0.012 150 250 60 30).2
     (by norm_num)⟩

/-! ### Dict and prune/merge lemmas (for C3) -/

theorem mem_keysOf_dictDelete {α : Type} (d : List (String × α)) (k k0 : String) :
    k ∈ keysOf (dictDelete d k0) ↔ (k ∈ keysOf d ∧ k ≠ k0) := by
  simp only [keysOf, dictDelete, List.mem_map, List.mem_filter, bne_iff_ne, ne_eq]
  constructor
  · rintro ⟨kv, ⟨hkv, hne⟩, rfl⟩
    exact ⟨⟨kv, hkv, rfl⟩, hne⟩
  · rintro ⟨⟨kv, hkv, rfl⟩, hne⟩
    exact ⟨kv, ⟨hkv, hne⟩, rfl⟩

theorem mem_keysOf_pruneStale {α : Type} (stale : List String) (d : List (String × α)) (k : String) :
    k ∈ keysOf (pruneStale d stale) ↔ (k ∈ keysOf d ∧ k ∉ stale) := by
  induction stale generalizing d with
  | nil => simp [pruneStale]
  | cons a rest ih =>
    show k ∈ keysOf (pruneStale (dictDelete d a) rest) ↔ _
    rw [ih, mem_keysOf_dictDelete]
    simp only [List.mem_cons]
    tauto

theorem mem_keysOf_dictInsert {α : Type} (d : List (String × α)) (k k0 : String) (v : α) :
    k ∈ keysOf (dictInsert d k0 v) ↔ (k ∈ keysOf d ∨ k = k0) := by
  unfold dictInsert
  split_ifs with h
  · simp only [List.any_eq_true, decide_eq_true_eq] at h
    obtain ⟨kv0, hkv0, hk0⟩ := h
    simp only [keysOf, List.mem_map]
    constructor
    · rintro ⟨kv, hkv, rfl⟩
      obtain ⟨kv1, hkv1, heq⟩ := hkv
      by_cases he : kv1.1 = k0
      · rw [if_pos he] at heq
        right
        rw [← heq]
      · rw [if_neg he] at heq
        left
        exact ⟨kv1, hkv1, by rw [← heq]⟩
    · rintro (⟨kv, hkv, rfl⟩ | rfl)
      · by_cases he : kv.1 = k0
        · refine ⟨(k0, v), ⟨kv, hkv, by rw [if_pos he]⟩, by rw [he]⟩
        · exact ⟨kv, ⟨kv, hkv, by rw [if_neg he]⟩, rfl⟩
      · exact ⟨(k, v), ⟨kv0, hkv0, by rw [if_pos hk0]⟩, rfl⟩
  · simp [keysOf]

theorem mem_keysOf_mergeNew {α : Type} (inc : List (String × α)) (d : List (String × α)) (k : String) :
    k ∈ keysOf (mergeNew d inc) ↔ (k ∈ keysOf d ∨ k ∈ keysOf inc) := by
  induction inc generalizing d with
  | nil => simp [mergeNew, keysOf]
  | cons kv rest ih =>
    show k ∈ keysOf (mergeNew (dictInsert d kv.1 kv.2) rest) ↔ _
    rw [ih, mem_keysOf_dictInsert]
    simp only [keysOf, List.map_cons, List.mem_cons]
    tauto

theorem dictGet_eq_none {α : Type} (d : List (String × α)) (k : String)
    (h : k ∉ keysOf d) : dictGet d k = none := by
  induction d with
  | nil => rfl
  | cons kv rest ih =>
    simp only [keysOf, List.map_cons, List.mem_cons] at h
    push_neg at h
    have hne : ¬ kv.1 = k := fun e => h.1 e.symm
    simp only [dictGet, if_neg hne]
    exact ih (by simpa [keysOf] using h.2)

theorem dictGet_dictDelete {α : Type} (d : List (String × α)) (k k0 : String) (h : k ≠ k0) :
    dictGet (dictDelete d k0) k = dictGet d k := by
  induction d with
  | nil => rfl
  | cons kv rest ih =>
    by_cases hk : kv.1 = k0
    · have hp : (kv.1 != k0) = false := by simp [hk]
      have hne : ¬ kv.1 = k := by rw [hk]; exact fun e => h e.symm
      simp only [dictDelete, List.filter_cons, hp, Bool.false_eq_true, if_false]
      rw [show List.filter (fun kv => kv.1 != k0) rest = dictDelete rest k0 from rfl, ih]
      simp [dictGet, hne]
    · have hp : (kv.1 != k0) = true := by simp [hk]
      simp only [dictDelete, List.filter_cons, hp, if_true]
      show dictGet (kv :: List.filter (fun kv => kv.1 != k0) rest) k = _
      by_cases hke : kv.1 = k
      · simp [dictGet, hke]
      · simp only [dictGet, if_neg hke]
        exact ih

theorem dictGet_pruneStale {α : Type} (stale : List String) (d : List (String × α)) (k : String)
    (h : k ∉ stale) : dictGet (pruneStale d stale) k = dictGet d k := by
  induction stale generalizing d with
  | nil => rfl
  | cons a rest ih =>
    simp only [List.mem_cons] at h
    push_neg at h
    show dictGet (pruneStale (dictDelete d a) rest) k = _
    rw [ih _ h.2, dictGet_dictDelete _ _ _ h.1]

theorem dictGet_mapReplace {α : Type} (d : List (String × α)) (k k0 : String) (v : α)
    (h : k ≠ k0) :
    dictGet (d.map (fun kv => if kv.1 = k0 then (k0, v) else kv)) k = dictGet d k := by
  induction d with
  | nil => rfl
  | cons kv rest ih =>
    by_cases he : kv.1 = k0
    · simp only [List.map_cons, if_pos he, dictGet]
      rw [if_neg (fun e => h e.symm), if_neg (by rw [he]; exact fun e => h e.symm)]
      exact ih
    · simp only [List.map_cons, if_neg he, dictGet]
      by_cases hke : kv.1 = k
      · simp [hke]
      · simp only [if_neg hke]
        exact ih

theorem dictGet_append_single {α : Type} (d : List (String × α)) (k k0 : String) (v : α)
    (h : k ≠ k0) :
    dictGet (d ++ [(k0, v)]) k = dictGet d k := by
  induction d with
  | nil =>
    have hne : ¬ k0 = k := fun e => h e.symm
    simp only [List.nil_append, dictGet, if_neg hne]
  | cons kv rest ih =>
    simp only [List.cons_append, dictGet]
    by_cases hke : kv.1 = k
    · simp [hke]
    · simp only [if_neg hke]
      exact ih

theorem dictGet_dictInsert_ne {α : Type} (d : List (String × α)) (k k0 : String) (v : α)
    (h : k ≠ k0) :
    dictGet (dictInsert d k0 v) k = dictGet d k := by
  unfold dictInsert
  split_ifs
  · exact dictGet_mapReplace d k k0 v h
  · exact dictGet_append_single d k k0 v h

theorem dictGet_mergeNew {α : Type} (inc : List (String × α)) (d : List (String × α)) (k : String)
    (h : k ∉ keysOf inc) :
    dictGet (mergeNew d inc) k = dictGet d k := by
  induction inc generalizing d with
  | nil => rfl
  | cons kv rest ih =>
    simp only [keysOf, List.map_cons, List.mem_cons] at h
    push_neg at h
    show dictGet (mergeNew (dictInsert d kv.1 kv.2) rest) k = _
    rw [ih _ (by simpa [keysOf] using h.2), dictGet_dictInsert_ne _ _ _ _ (fun e => h.1 e)]

/-- C3: a run's store transformation removes exactly the stale ids (stored
keys not in the active set) and then inserts-or-overwrites each incoming
record by its id: a key survives into the result iff it was stored and
active, or is incoming (first conjunct); and a key not among the incoming
ids keeps its stored record when active, and is gone when not (second
conjunct). -/
theorem prune_merge_correct {α : Type} (store : List (String × α)) (active : List String)
    (incoming : List (String × α)) (k : String) :
    (k ∈ keysOf (runPruneMerge store active incoming)
      ↔ ((k ∈ keysOf store ∧ k ∈ active) ∨ k ∈ keysOf incoming))
    ∧ (k ∉ keysOf incoming →
      dictGet (runPruneMerge store active incoming) k
        = if k ∈ active then dictGet store k else none) := by
  have hstale : k ∈ staleIdsOf store active ↔ (k ∈ keysOf store ∧ k ∉ active) := by
    simp [staleIdsOf, List.mem_filter]
  constructor
  · unfold runPruneMerge
    rw [mem_keysOf_mergeNew, mem_keysOf_pruneStale, hstale]
    tauto
  · intro hk
    unfold runPruneMerge
    rw [dictGet_mergeNew _ _ _ hk]
    by_cases ha : k ∈ active
    · rw [if_pos ha]
      exact dictGet_pruneStale _ _ _ (fun hs => (hstale.mp hs).2 ha)
    · rw [if_neg ha]
      apply dictGet_eq_none
      rw [mem_keysOf_pruneStale, hstale]
      tauto

/-- Witness for C3 at the spec's scenario: stored keys `{A, B, C}`, active
ids `{B, C, D}`, one incoming `D` record — the result has no `A`, keeps
`B` with its stored record, and contains `D`. -/
theorem prune_merge_correct_witness :
    ("A" ∉ keysOf (runPruneMerge [("A", (1 : ℤ)), ("B", 2), ("C", 3)] ["B", "C", "D"] [("D", 4)]))
    ∧ ("D" ∈ keysOf (runPruneMerge [("A", (1 : ℤ)), ("B", 2), ("C", 3)] ["B", "C", "D"] [("D", 4)]))
    ∧ dictGet (runPruneMerge [("A", (1 : ℤ)), ("B", 2), ("C", 3)] ["B", "C", "D"] [("D", 4)]) ("B")
        = some 2 := by
  refine ⟨?_, ?_, ?_⟩
  · intro hmem
    have h := (prune_merge_correct [("A", (1 : ℤ)), ("B", 2), ("C", 3)] ["B", "C", "D"]
      [("D", 4)] ("A")).1.mp hmem
    simp [keysOf] at h
  · exact (prune_merge_correct [("A", (1 : ℤ)), ("B", 2), ("C", 3)] ["B", "C", "D"]
      [("D", 4)] ("D")).1.mpr (by simp [keysOf])
  · rw [(prune_merge_correct [("A", (1 : ℤ)), ("B", 2), ("C", 3)] ["B", "C", "D"]
      [("D", 4)] ("B")).2 (by simp [keysOf])]
    rfl

/-! ### Store lemmas (for C4) -/

/-- On a well-formed legacy document the migration comprehension succeeds
and produces exactly the keyed form. -/
theorem migrate_eq_keyedForm (items : List JVal) :
    ∀ acc, legacyOk items = true →
      migrate acc items = Except.ok (items.foldl keyedStep acc) := by
  induction items with
  | nil => intro acc _; rfl
  | cons item rest ih =>
    intro acc h
    rw [legacyOk, List.all_cons, Bool.and_eq_true] at h
    obtain ⟨hp, hrest⟩ := h
    have hrest' : legacyOk rest = true := hrest
    match item with
    | .jnull => simp at hp
    | .jbool b => simp at hp
    | .jnum n => simp at hp
    | .jstr s => simp at hp
    | .jarr xs => simp at hp
    | .jobj fields =>
      cases hf : fields.find? (fun kv => kv.1 == "zpid") with
      | none =>
        have hany : fields.any (fun kv => kv.1 == "zpid") = false := by
          rw [List.any_eq_false]
          intro kv hkv
          simpa using List.find?_eq_none.mp hf kv hkv
        simp only [migrate, zpidIn, hany, Bool.false_eq_true, if_false]
        rw [ih acc hrest']
        simp only [List.foldl_cons, keyedStep, hf]
      | some kv =>
        have hpred := List.find?_some hf
        have hmem : kv ∈ fields := List.mem_of_find?_eq_some hf
        have hany : fields.any (fun kv => kv.1 == "zpid") = true :=
          List.any_eq_true.mpr ⟨kv, hmem, hpred⟩
        simp only [hf] at hp
        obtain ⟨k, htk⟩ := Option.isSome_iff_exists.mp hp
        simp only [migrate, zpidIn, hany, if_true, zpidGet, hf, htk]
        rw [ih (dictInsert acc k (JVal.jobj fields)) hrest']
        simp only [List.foldl_cons, keyedStep, hf, htk]

/-- C4 counterexample: the claim states `load()` never lets an error escape
when the backing document is missing, unreadable, or malformed; but a file
whose bytes are not valid UTF-8 (an unreadable document) makes
`read_text(encoding="utf-8")` raise `UnicodeDecodeError`, which the
`except (json.JSONDecodeError, TypeError, KeyError)` clause at store.py:30
does not catch, so `load_store` raises instead of returning a map. -/
theorem load_store_unreadable_raises :
    load_store StoreFile.undecodable = Except.error ("UnicodeDecodeError") := rfl

/-- C4 (amended): `load_store` returns the empty map when the document is
missing or fails JSON parsing, and the persisted mapping itself when the
document is a JSON object; a legacy flat list of records is migrated to the
keyed form by record id, discarding records lacking one.  However, a file
with undecodable bytes raises `UnicodeDecodeError` out of the function, and
a syntactically valid document that is neither a list nor a mapping (e.g. a
bare number) is returned unchanged, not replaced by an empty map. -/
theorem load_store_amended :
    (load_store StoreFile.missing = Except.ok (PyVal.pdict []))
    ∧ (load_store StoreFile.invalidJson = Except.ok (PyVal.pdict []))
    ∧ (load_store StoreFile.undecodable = Except.error ("UnicodeDecodeError"))
    ∧ (∀ fields : List (String × JVal), load_store (.parsed (.jobj fields))
        = Except.ok (PyVal.pdict (fields.map (fun kv => (JKey.kstr kv.1, kv.2)))))
    ∧ (∀ n : ℚ, load_store (.parsed (.jnum n)) = Except.ok (PyVal.pyother (.jnum n)))
    ∧ (∀ items : List JVal, legacyOk items = true →
        load_store (.parsed (.jarr items)) = Except.ok (PyVal.pdict (keyedForm items))) := by
  refine ⟨rfl, rfl, rfl, fun fields => rfl, fun n => rfl, fun items h => ?_⟩
  show (match migrate [] items with
        | .ok d => Except.ok (PyVal.pdict d)
        | .error _ => Except.ok (PyVal.pdict [])) = _
  rw [migrate_eq_keyedForm items [] h]
  rfl

/-- Witness for C4's theorem on a two-record legacy list whose second
record lacks an id and is discarded. -/
theorem load_store_amended_witness :
    legacyOk [JVal.jobj [("zpid", JVal.jstr ("A")), ("price", JVal.jnum 1)],
        JVal.jobj [("addr", JVal.jstr ("x"))]] = true
    ∧ load_store (.parsed (.jarr [JVal.jobj [("zpid", JVal.jstr ("A")), ("price", JVal.jnum 1)],
          JVal.jobj [("addr", JVal.jstr ("x"))]]))
      = Except.ok (PyVal.pdict [(JKey.kstr ("A"),
          JVal.jobj [("zpid", JVal.jstr ("A")), ("price", JVal.jnum 1)])]) := by
  refine ⟨rfl, ?_⟩
  have h := load_store_amended.2.2.2.2.2
    [JVal.jobj [("zpid", JVal.jstr ("A")), ("price", JVal.jnum 1)],
     JVal.jobj [("addr", JVal.jstr ("x"))]] rfl
  rw [h]
  rfl

/-- C8: enrichment degrades and never fabricates.  (1) If the coordinates
are not supplied and geocoding is unresolved, `compute_driving_times`
returns the all-unknown record (`nearest_mbta_station = "Unknown"`, all
three durations absent) and does no further work — the result does not
depend on the routing response at all.  (2) If the routing step fails
(transport/parse error or non-Ok response), all three durations are absent
but the already-resolved nearest-station name is preserved.  (3) With a
successful response, each per-destination duration is converted
independently and a missing entry yields an absent field — never zero. -/
theorem driving_times_degrade (d : ℚ → ℚ → ℚ → ℚ → ℚ) (geo : String → Option (ℚ × ℚ))
    (address : String) :
    (∀ resp resp' : OsrmResp, geo address = none →
      compute_driving_times d geo resp address none none
        = Except.ok ⟨none, "Unknown", none, none⟩
      ∧ compute_driving_times d geo resp address none none
        = compute_driving_times d geo resp' address none none)
    ∧ (∀ la ln : ℚ, compute_driving_times d geo OsrmResp.failed address (some la) (some ln)
        = Except.ok ⟨none, (find_nearest_mbta d la ln).1, none, none⟩)
    ∧ (∀ (la ln : ℚ) (o1 o2 o3 : Option ℚ),
        compute_driving_times d geo (OsrmResp.row [o1, o2, o3]) address (some la) (some ln)
          = Except.ok ⟨to_minutes o1, (find_nearest_mbta d la ln).1, to_minutes o2, to_minutes o3⟩
        ∧ to_minutes none = none) := by
  refine ⟨?_, ?_, ?_⟩
  · intro resp resp' hg
    constructor
    · simp only [compute_driving_times, hg]
      rfl
    · simp only [compute_driving_times, hg]
  · intro la ln
    rfl
  · intro la ln o1 o2 o3
    exact ⟨rfl, rfl⟩

/-- Witness for C8 with an unresolved geocoder, a failed routing call, and
a response with a missing first entry. -/
theorem driving_times_degrade_witness :
    unresolvedGeo ("10 Main St") = none
    ∧ compute_driving_times constantMetric unresolvedGeo OsrmResp.failed ("10 Main St") none none
        = Except.ok ⟨none, "Unknown", none, none⟩
    ∧ compute_driving_times constantMetric unresolvedGeo
        (OsrmResp.row [none, some 600, some 900]) ("10 Main St") (some 42) (some (-71))
        = Except.ok ⟨none, (find_nearest_mbta constantMetric 42 (-71)).1,
            to_minutes (some 600), to_minutes (some 900)⟩ := by
  refine ⟨rfl, ?_, ?_⟩
  · exact ((driving_times_degrade constantMetric unresolvedGeo ("10 Main St")).1
      OsrmResp.failed OsrmResp.failed rfl).1
  · have h := ((driving_times_degrade constantMetric unresolvedGeo ("10 Main St")).2.2
      42 (-71) none (some 600) (some 900)).1
    rw [h]
    rfl

/-! ### Nearest-station lemmas (for C7) -/

theorem foldl_nearStep_pick (d : ℚ → ℚ → ℚ → ℚ → ℚ) (lat lng : ℚ) (l : List Station) :
    ∀ b : Station,
      l.foldl (nearStep d lat lng) (stateOfStation d lat lng b)
        = stateOfStation d lat lng (pick (distOf d lat lng) b l) := by
  induction l with
  | nil => intro b; rfl
  | cons s rest ih =>
    intro b
    show rest.foldl (nearStep d lat lng) (nearStep d lat lng (stateOfStation d lat lng b) s)
      = stateOfStation d lat lng
          (pick (distOf d lat lng) (if distOf d lat lng s < distOf d lat lng b then s else b) rest)
    have hstep : nearStep d lat lng (stateOfStation d lat lng b) s
        = stateOfStation d lat lng (if distOf d lat lng s < distOf d lat lng b then s else b) := by
      simp only [nearStep, stateOfStation, distOf]
      split_ifs <;> rfl
    rw [hstep]
    exact ih _

theorem pick_mem (dd : Station → ℚ) : ∀ (l : List Station) (b : Station),
    pick dd b l = b ∨ pick dd b l ∈ l := by
  intro l
  induction l with
  | nil => intro b; exact Or.inl rfl
  | cons s rest ih =>
    intro b
    by_cases hlt : dd s < dd b
    · have hp : pick dd b (s :: rest) = pick dd s rest := by
        show pick dd (if dd s < dd b then s else b) rest = _
        rw [if_pos hlt]
      rw [hp]
      rcases ih s with h | h
      · exact Or.inr (by rw [h]; exact List.mem_cons_self s rest)
      · exact Or.inr (List.mem_cons_of_mem s h)
    · have hp : pick dd b (s :: rest) = pick dd b rest := by
        show pick dd (if dd s < dd b then s else b) rest = _
        rw [if_neg hlt]
      rw [hp]
      rcases ih b with h | h
      · exact Or.inl h
      · exact Or.inr (List.mem_cons_of_mem s h)

theorem pick_le (dd : Station → ℚ) : ∀ (l : List Station) (b : Station),
    dd (pick dd b l) ≤ dd b ∧ ∀ t ∈ l, dd (pick dd b l) ≤ dd t := by
  intro l
  induction l with
  | nil => intro b; exact ⟨le_refl _, by simp⟩
  | cons s rest ih =>
    intro b
    by_cases hlt : dd s < dd b
    · have hp : pick dd b (s :: rest) = pick dd s rest := by
        show pick dd (if dd s < dd b then s else b) rest = _
        rw [if_pos hlt]
      rw [hp]
      obtain ⟨h1, h2⟩ := ih s
      refine ⟨le_trans h1 (le_of_lt hlt), ?_⟩
      intro t ht
      rcases List.mem_cons.mp ht with rfl | ht'
      · exact h1
      · exact h2 t ht'
    · have hp : pick dd b (s :: rest) = pick dd b rest := by
        show pick dd (if dd s < dd b then s else b) rest = _
        rw [if_neg hlt]
      rw [hp]
      obtain ⟨h1, h2⟩ := ih b
      refine ⟨h1, ?_⟩
      intro t ht
      rcases List.mem_cons.mp ht with rfl | ht'
      · exact le_trans h1 (not_lt.mp hlt)
      · exact h2 t ht'

theorem pick_first (dd : Station → ℚ) : ∀ (l : List Station) (b : Station),
    (pick dd b l = b ∧ ∀ t ∈ l, dd b ≤ dd t)
    ∨ ∃ l1 l2, l = l1 ++ pick dd b l :: l2 ∧ dd (pick dd b l) < dd b
        ∧ ∀ t ∈ l1, dd (pick dd b l) < dd t := by
  intro l
  induction l with
  | nil => intro b; exact Or.inl ⟨rfl, by simp⟩
  | cons s rest ih =>
    intro b
    by_cases hlt : dd s < dd b
    · have hp : pick dd b (s :: rest) = pick dd s rest := by
        show pick dd (if dd s < dd b then s else b) rest = _
        rw [if_pos hlt]
      rw [hp]
      rcases ih s with ⟨heq, hmin⟩ | ⟨l1, l2, heq, hltb, hstrict⟩
      · right
        refine ⟨[], rest, ?_, ?_, ?_⟩
        · rw [heq]
          rfl
        · rw [heq]
          exact hlt
        · intro t ht
          simp at ht
      · right
        refine ⟨s :: l1, l2, ?_, lt_trans hltb hlt, ?_⟩
        · rw [List.cons_append, ← heq]
        · intro t ht
          rcases List.mem_cons.mp ht with rfl | ht'
          · exact hltb
          · exact hstrict t ht'
    · have hp : pick dd b (s :: rest) = pick dd b rest := by
        show pick dd (if dd s < dd b then s else b) rest = _
        rw [if_neg hlt]
      rw [hp]
      rcases ih b with ⟨heq, hmin⟩ | ⟨l1, l2, heq, hltb, hstrict⟩
      · left
        refine ⟨heq, ?_⟩
        intro t ht
        rcases List.mem_cons.mp ht with rfl | ht'
        · exact not_lt.mp hlt
        · exact hmin t ht'
      · right
        refine ⟨s :: l1, l2, ?_, hltb, ?_⟩
        · rw [List.cons_append, ← heq]
        · intro t ht
          rcases List.mem_cons.mp ht with rfl | ht'
          · exact lt_of_lt_of_le hltb (not_lt.mp hlt)
          · exact hstrict t ht'

theorem foldl_nearStep_spec (d : ℚ → ℚ → ℚ → ℚ → ℚ) (lat lng : ℚ) (l : List Station)
    (hl : l ≠ []) :
    ∃ (s : Station) (l1 l2 : List Station), l = l1 ++ s :: l2
      ∧ l.foldl (nearStep d lat lng) ("", none, 0, 0) = stateOfStation d lat lng s
      ∧ (∀ t ∈ l, distOf d lat lng s ≤ distOf d lat lng t)
      ∧ (∀ t ∈ l1, distOf d lat lng s < distOf d lat lng t) := by
  match l, hl with
  | s0 :: tail, _ =>
    have hfold : (s0 :: tail).foldl (nearStep d lat lng) ("", none, 0, 0)
        = stateOfStation d lat lng (pick (distOf d lat lng) s0 tail) := by
      show tail.foldl (nearStep d lat lng) (nearStep d lat lng ("", none, 0, 0) s0) = _
      have hinit : nearStep d lat lng ("", none, 0, 0) s0 = stateOfStation d lat lng s0 := rfl
      rw [hinit]
      exact foldl_nearStep_pick d lat lng tail s0
    rcases pick_first (distOf d lat lng) tail s0 with ⟨heq, hmin⟩ | ⟨l1, l2, heq, hltb, hstrict⟩
    · refine ⟨s0, [], tail, rfl, ?_, ?_, ?_⟩
      · rw [hfold, heq]
      · intro t ht
        rcases List.mem_cons.mp ht with rfl | ht'
        · exact le_refl _
        · exact hmin t ht'
      · intro t ht
        simp at ht
    · obtain ⟨h1, h2⟩ := pick_le (distOf d lat lng) tail s0
      refine ⟨pick (distOf d lat lng) s0 tail, s0 :: l1, l2, ?_, hfold, ?_, ?_⟩
      · rw [List.cons_append, ← heq]
      · intro t ht
        rcases List.mem_cons.mp ht with rfl | ht'
        · exact h1
        · exact h2 t ht'
      · intro t ht
        rcases List.mem_cons.mp ht with rfl | ht'
        · exact hltb
        · exact hstrict t ht'

/-- C7: for every distance metric (in particular the floating-point
haversine, which is a parameter of the embedding), `find_nearest_mbta`
returns a node of the fixed `MBTA_STATIONS` list whose distance to the
query point is minimal over the list, and on ties the first node attaining
the minimum in iteration order (every station strictly before the returned
one is strictly farther); the function is pure, so querying the same
coordinates twice returns the identical name. -/
theorem nearest_mbta_first_min (d : ℚ → ℚ → ℚ → ℚ → ℚ) (lat lng : ℚ) :
    ∃ (s : Station) (l1 l2 : List Station),
      MBTA_STATIONS = l1 ++ s :: l2
      ∧ find_nearest_mbta d lat lng = (s.name, s.lat, s.lng)
      ∧ (∀ t ∈ MBTA_STATIONS, d lat lng s.lat s.lng ≤ d lat lng t.lat t.lng)
      ∧ (∀ t ∈ l1, d lat lng s.lat s.lng < d lat lng t.lat t.lng)
      ∧ (find_nearest_mbta d lat lng).1 = (find_nearest_mbta d lat lng).1 := by
  have hne : MBTA_STATIONS ≠ [] := by
    simp [MBTA_STATIONS, mbtaStations1]
  obtain ⟨s, l1, l2, heq, hfold, hmin, hstrict⟩ := foldl_nearStep_spec d lat lng MBTA_STATIONS hne
  refine ⟨s, l1, l2, heq, ?_, hmin, hstrict, rfl⟩
  simp only [find_nearest_mbta, hfold]
  rfl
